import Mathlib

/-!
Verification development for the YouTube-Shorts transcription pipeline in
`src/sub.py`.  The Python source is shallowly embedded below: pure string
manipulation is translated to functions on `List Char` / `String`, the
network-facing functions (`obtener_shorts_del_canal`, `generar_transcripcion`,
the processing loop of `main`) become functions of an explicit environment
value describing what each outbound call returns, and a Python exception that
escapes a region of code is represented by an `Option`/sentinel result of the
corresponding embedded function.
-/

/-- Python `str.isspace` / `str.strip` whitespace test, by code point.
Covers the whitespace set of CPython `str` (ASCII controls 9-13, 28-31,
space, NEL, NBSP, ogham space, the U+2000 block, and the other Unicode
space separators). -/
def pyIsSpace (c : Char) : Bool :=
  let n := c.toNat
  (9 ≤ n && n ≤ 13) || n = 32 || (28 ≤ n && n ≤ 31) || n = 133 || n = 160 ||
    n = 0x1680 || (0x2000 ≤ n && n ≤ 0x200a) || n = 0x2028 || n = 0x2029 ||
    n = 0x202f || n = 0x205f || n = 0x3000

/-- Leading- and trailing-whitespace removal, as `int()` applies to its
string argument before parsing. -/
def pyStrip (s : List Char) : List Char :=
  ((s.dropWhile pyIsSpace).reverse.dropWhile pyIsSpace).reverse

/-- Value of a digit list read in base 10. -/
def valorDigitos (l : List Char) : Nat :=
  l.foldl (fun a c => a * 10 + (c.toNat - 48)) 0

/-- The digit part of a Python integer literal: non-empty, all ASCII digits.
(The underscore digit grouping and non-ASCII decimal digits that CPython
also accepts are not modelled; no input in this development uses them.) -/
def cuerpoNumero (l : List Char) : Option Nat :=
  if l ≠ [] ∧ l.all Char.isDigit then some (valorDigitos l) else none

/-- Python `int(s)` on a string: strip whitespace, optional sign, digits.
`none` models the `ValueError` that `int` raises on anything else. -/
def pyInt? (s : List Char) : Option Int :=
  match pyStrip s with
  | [] => none
  | c :: ds =>
    if c = '+' then (cuerpoNumero ds).map (fun n => (n : Int))
    else if c = '-' then (cuerpoNumero ds).map (fun n => -(n : Int))
    else (cuerpoNumero (c :: ds)).map (fun n => (n : Int))

/-- Python `str.replace("PT", "")`: delete every occurrence of the
two-character substring `PT`, scanning left to right. -/
def quitarPT : List Char → List Char
  | [] => []
  | [c] => [c]
  | c :: d :: rest =>
    if c = 'P' ∧ d = 'T' then quitarPT rest else c :: quitarPT (d :: rest)

/-- The duration test on line 127 of `src/sub.py`:
`'M' not in duration or int(duration.split('M')[0].replace('PT', '')) < 1`.
`duration.split('M')[0]` is the prefix of the string before the first `M`.
The result is `some b` when Python evaluates the condition to `b`, and
`none` when the `int(...)` call raises `ValueError` (which the surrounding
`except HttpError` clauses do not catch). -/
def esShortDuration (duration : String) : Option Bool :=
  if duration.data.contains 'M' = false then some true
  else
    match pyInt? (quitarPT (duration.data.takeWhile (fun c => c ≠ 'M'))) with
    | none => none
    | some n => some (decide (n < 1))

example : esShortDuration "PT45S" = some true := by decide
example : esShortDuration "PT5M30S" = some false := by decide
example : esShortDuration "PT0M59S" = some true := by decide
example : esShortDuration "" = some true := by decide
example : esShortDuration "PTxM" = none := by decide
example : esShortDuration "PT1H2M3S" = none := by decide
example : esShortDuration "PT2H" = some true := by decide

/-- ASCII lower-casing of one character, as Python `str.lower` acts on the
ASCII range (the error strings inspected in `src/sub.py` are ASCII). -/
def minusculaAscii (c : Char) : Char :=
  if 'A' ≤ c ∧ c ≤ 'Z' then Char.ofNat (c.toNat + 32) else c

/-- Python `sub in s` substring membership on character lists. -/
def contieneSub (sub : List Char) : List Char → Bool
  | [] => sub.isPrefixOf ([] : List Char)
  | c :: t => sub.isPrefixOf (c :: t) || contieneSub sub t

/-- A record appended to `shorts_info` on lines 128-132 of `src/sub.py`. -/
structure ShortRecord where
  video_id : String
  title : String
  url : String
deriving DecidableEq

/-- Line 131: the derived short-form viewing URL. -/
def urlDeShort (videoId : String) : String :=
  "https://www.youtube.com/shorts/" ++ videoId

/-- Outcome of the per-video metadata call
`youtube.videos().list(part='contentDetails,statistics', id=video_id).execute()`
(lines 119-126): it can raise `HttpError` (caught on line 133, video skipped),
return a response whose `items` key is missing or empty (condition on line 125
fails, video silently skipped), or return a duration code. -/
inductive ConsultaVideo where
  | httpError (msg : String)
  | noItems
  | ok (duration : String)

/-- One entry of a search-result page: `item['id']['videoId']`,
`item['snippet']['title']`, and the behaviour of the follow-up metadata
call for that video. -/
structure PageItem where
  videoId : String
  title : String
  lookup : ConsultaVideo

/-- Behaviour of one `request.execute()` for a search page (lines 106-112):
an `HttpError` (caught on lines 140-148), a response carrying an `error`
key (lines 109-112), or a normal item list. -/
inductive Pagina where
  | httpError (msg : String)
  | errorField (msg : String)
  | ok (items : List PageItem)

/-- Line 143: quota-exceeded message. -/
def mensajeCuota : String :=
  "Se ha excedido la cuota de la API de YouTube. Por favor, inténtalo más tarde."

/-- Line 145: invalid-key message. -/
def mensajeInvalida : String :=
  "La API Key proporcionada no es válida o ha expirado."

/-- Line 147: generic transport-error message carrying `str(e)`. -/
def mensajeGenerico (msg : String) : String :=
  "Error al comunicarse con la API de YouTube: " ++ msg

/-- Line 153: message of the outermost `except Exception` handler.  In the
source the text continues with `: {str(e)}`; the exception detail is not
modelled. -/
def mensajeInesperado : String :=
  "Error inesperado al obtener los Shorts"

/-- Lines 142-147: pick the user-facing message from the `HttpError` text by
substring inspection of `str(e).lower()`. -/
def categorizar (msg : String) : String :=
  if contieneSub "quota".data (msg.data.map minusculaAscii) then mensajeCuota
  else if contieneSub "invalid".data (msg.data.map minusculaAscii) then mensajeInvalida
  else mensajeGenerico msg

/-- Return value of `obtener_shorts_del_canal` together with the `st.error`
message it emitted, if any (`st.warning` calls for skipped videos are not
recorded). -/
structure EnumResult where
  records : List ShortRecord
  errorMsg : Option String
deriving DecidableEq

/-- The `for item in response['items']` body (lines 115-135): each video's
metadata is looked up; an `HttpError` skips the video; a passing duration
appends a `ShortRecord`; `none` models the uncaught `ValueError` from the
duration test escaping the loop. -/
def procesarPagina : List ShortRecord → List PageItem → Option (List ShortRecord)
  | acc, [] => some acc
  | acc, item :: rest =>
    match item.lookup with
    | .httpError _ => procesarPagina acc rest
    | .noItems => procesarPagina acc rest
    | .ok dur =>
      match esShortDuration dur with
      | none => none
      | some true =>
        procesarPagina (acc ++ [⟨item.videoId, item.title, urlDeShort item.videoId⟩]) rest
      | some false => procesarPagina acc rest

/-- The `while request and len(shorts_info) < 50` loop (lines 104-148).  The
list of `Pagina` values plays the role of the pagination cursor chain
(`list_next` returning `None` is the empty list).  A page-level `HttpError`
or an `error` field in the response returns `[]` with the categorized
message; the uncaught `ValueError` from the duration test reaches the
outermost `except Exception` (lines 152-154), which also returns `[]`. -/
def buclePaginas : List ShortRecord → List Pagina → EnumResult
  | acc, [] => ⟨acc, none⟩
  | acc, p :: rest =>
    if acc.length < 50 then
      match p with
      | .httpError msg => ⟨[], some (categorizar msg)⟩
      | .errorField msg => ⟨[], some ("Error de API de YouTube: " ++ msg)⟩
      | .ok items =>
        match procesarPagina acc items with
        | none => ⟨[], some mensajeInesperado⟩
        | some acc2 => buclePaginas acc2 rest
    else ⟨acc, none⟩

/-- `obtener_shorts_del_canal` (lines 81-154) as a function of the API
behaviour, starting from `shorts_info = []`. -/
def obtener_shorts_del_canal (pages : List Pagina) : EnumResult :=
  buclePaginas [] pages

example :
    obtener_shorts_del_canal
      [Pagina.ok [⟨"a", "ta", .ok "PT30S"⟩, ⟨"b", "tb", .ok "PT5M"⟩]] =
    ⟨[⟨"a", "ta", urlDeShort "a"⟩], none⟩ := by decide

example :
    obtener_shorts_del_canal [Pagina.httpError "Quota exceeded for quota metric"] =
    ⟨[], some mensajeCuota⟩ := by decide

/-- The line boundaries recognised by Python `str.splitlines`: LF, VT, FF,
CR, FS, GS, RS, NEL, LINE SEPARATOR, PARAGRAPH SEPARATOR (CRLF is handled
as one boundary by `pySplitlines` below). -/
def esLimite (c : Char) : Bool :=
  let n := c.toNat
  n = 10 || n = 11 || n = 12 || n = 13 || n = 28 || n = 29 || n = 30 ||
    n = 133 || n = 0x2028 || n = 0x2029

/-- Fuse each CR-LF pair into a single LF, left to right, so that a split on
individual boundary characters afterwards treats the pair as one boundary. -/
def fundirCRLF : List Char → List Char
  | [] => []
  | [c] => [c]
  | c :: d :: rest =>
    if c = '\r' ∧ d = '\n' then '\n' :: fundirCRLF rest
    else c :: fundirCRLF (d :: rest)

/-- Split on single boundary characters, dropping a trailing empty line
(`"ab\n".splitlines() == ["ab"]`, `"".splitlines() == []`). -/
def cortarLimites : List Char → List (List Char)
  | [] => []
  | c :: rest =>
    if esLimite c then [] :: cortarLimites rest
    else
      match cortarLimites rest with
      | [] => [[c]]
      | l :: ls => (c :: l) :: ls

/-- Python `str.splitlines`. -/
def pySplitlines (s : List Char) : List (List Char) :=
  cortarLimites (fundirCRLF s)

/-- Python `'\n'.join(ls)`. -/
def unirNL : List (List Char) → List Char
  | [] => []
  | [l] => l
  | l :: l2 :: ls => l ++ '\n' :: unirNL (l2 :: ls)

/-- Python `html.unescape`, restricted to the semicolon-terminated named
references `&amp;` `&lt;` `&gt;` `&quot;`: like CPython, each replacement is
emitted and scanning resumes after it (no re-scan of replaced text).  The
full HTML5 named-reference table, numeric references, and the
semicolon-less forms CPython also accepts are not modelled; no theorem
below depends on them. -/
def pyUnescape : List Char → List Char
  | [] => []
  | '&' :: 'a' :: 'm' :: 'p' :: ';' :: rest => '&' :: pyUnescape rest
  | '&' :: 'l' :: 't' :: ';' :: rest => '<' :: pyUnescape rest
  | '&' :: 'g' :: 't' :: ';' :: rest => '>' :: pyUnescape rest
  | '&' :: 'q' :: 'u' :: 'o' :: 't' :: ';' :: rest => '"' :: pyUnescape rest
  | c :: rest => c :: pyUnescape rest

/-- A line survives the comprehension filter `if line.strip()` exactly when
it has a character that is not Python whitespace. -/
def lineaNoBlanca (l : List Char) : Bool :=
  l.any (fun c => !(pyIsSpace c))

/-- Line 213 of `src/sub.py`:
`'\n'.join(line for line in text.splitlines() if line.strip())`. -/
def limpiarLineas (s : List Char) : List Char :=
  unirNL ((pySplitlines s).filter lineaNoBlanca)

/-- Lines 212-213: the transcript normalization, entity decoding followed by
blank-line removal. -/
def normalizarLista (s : List Char) : List Char :=
  limpiarLineas (pyUnescape s)

/-- String wrapper of the normalization. -/
def normalizar (texto : String) : String :=
  ⟨normalizarLista texto.data⟩

example : normalizar "a &amp; b" = "a & b" := by decide
example : normalizar "one\n   \n\ntwo\r\nthree\n" = "one\ntwo\nthree" := by decide
example : normalizar "&amp;amp;" = "&amp;" := by decide
example : normalizar "&amp;" = "&" := by decide

/-- Index of the first occurrence of `sub` in a list, if any. -/
def indiceDe (sub : List Char) : List Char → Option Nat
  | [] => if sub.isEmpty then some 0 else none
  | c :: t =>
    if sub.isPrefixOf (c :: t) then some 0 else (indiceDe sub t).map (· + 1)

/-- Python `s.find(sub, start)` for a non-negative `start`: `-1` when `sub`
does not occur at or after `start` (or `start` exceeds the length). -/
def pyFind (s sub : List Char) (start : Nat) : Int :=
  if s.length < start then -1
  else
    match indiceDe sub (s.drop start) with
    | some i => ((start + i : Nat) : Int)
    | none => -1

/-- Python slice `s[a:b]`: negative indices count from the end, and both
bounds are clamped to the string. -/
def pySlice (s : List Char) (a b : Int) : List Char :=
  let n : Int := s.length
  let a2 := if a < 0 then max 0 (n + a) else min a n
  let b2 := if b < 0 then max 0 (n + b) else min b n
  (s.take b2.toNat).drop a2.toNat

/-- The hidden-field marker `name="_token" value="` searched for on
line 174 of `src/sub.py`.  It is 21 characters long. -/
def tokenMarker : List Char := "name=\"_token\" value=\"".data

example : tokenMarker.length = 21 := by decide

/-- Lines 174-176 of `src/sub.py`:
`token_start = content.find('name="_token" value="') + 20`,
`token_end = content.find('"', token_start)`,
`csrf_token = content[token_start:token_end]`. -/
def extraerToken (content : List Char) : List Char :=
  let token_start : Int := pyFind content tokenMarker 0 + 20
  let token_end : Int := pyFind content ['"'] token_start.toNat
  pySlice content token_start token_end

/-- Behaviour of one `session.get` (the landing page on line 167, or the
transcript resource on line 209): the call can raise (`exn`), or return a
response with a status and a body text. -/
inductive RespHttp where
  | exn
  | resp (ok : Bool) (body : List Char)

/-- Behaviour of the extraction POST (lines 196-206): the call can raise,
return a non-success status, return a body that `.json()` cannot parse, or
yield the parsed JSON, of which only `data` (an optional list whose
entries carry an optional `url` field) is consulted. -/
inductive RespExtract where
  | exn
  | notOk
  | badJson
  | ok (dataField : Option (List (Option (List Char))))

/-- The behaviour of the transcript service during one
`generar_transcripcion` call. -/
structure TranscriptEnv where
  landing : RespHttp
  extract : RespExtract
  transcript : RespHttp

/-- What one `generar_transcripcion` call returned and which token value, if
any, it sent in the extraction POST. -/
structure ResultadoSesion where
  resultado : Option (List Char)
  tokenEnviado : Option (List Char)
deriving DecidableEq

/-- `generar_transcripcion` (lines 156-219 of `src/sub.py`) as a function of
the service behaviour.  Every failure path returns `none` (the Python
function returns `None`, the outermost `except Exception` included), and
the success path returns the normalized transcript body.  Line 207's
`if transcript_url:` is a truthiness test, so a `url` field holding the
empty string fails it just as a missing field does. -/
def generar_transcripcion (env : TranscriptEnv) : ResultadoSesion :=
  match env.landing with
  | .exn => ⟨none, none⟩
  | .resp ok content =>
    if ok = false then ⟨none, none⟩
    else
      let csrf_token := extraerToken content
      if csrf_token = [] then ⟨none, none⟩
      else
        match env.extract with
        | .exn => ⟨none, some csrf_token⟩
        | .notOk => ⟨none, some csrf_token⟩
        | .badJson => ⟨none, some csrf_token⟩
        | .ok dataField =>
          match dataField with
          | none => ⟨none, some csrf_token⟩
          | some [] => ⟨none, some csrf_token⟩
          | some (url? :: _) =>
            match url? with
            | none => ⟨none, some csrf_token⟩
            | some turl =>
              if turl = [] then ⟨none, some csrf_token⟩
              else
                match env.transcript with
                | .exn => ⟨none, some csrf_token⟩
                | .resp tok tbody =>
                  if tok = false then ⟨none, some csrf_token⟩
                  else ⟨some (normalizarLista tbody), some csrf_token⟩

example :
    extraerToken "<input name=\"_token\" value=\"SECRET123\">".data = [] := by decide

example :
    extraerToken "a page with no marker but a stray quote \" later".data =
    "er but a stray quote ".data := by decide

example :
    (generar_transcripcion
      ⟨RespHttp.resp true "a page with no marker but a stray quote \" later".data,
        RespExtract.ok (some [some []]),
        RespHttp.resp true "hello".data⟩).resultado = none := by decide

example :
    (generar_transcripcion
      ⟨RespHttp.resp true "a page with no marker but a stray quote \" later".data,
        RespExtract.ok (some [some "https://x/t".data]),
        RespHttp.resp true "hello".data⟩).resultado = some "hello".data := by decide

/-- Line 304 of `src/sub.py`: the placeholder substituted by
`transcript if transcript else 'No se pudo generar la transcripción'`. -/
def placeholder : String := "No se pudo generar la transcripción"

/-- One row of `results_df` (lines 300-305). -/
structure ResultRow where
  video_id : String
  title : String
  url : String
  transcripcion : String
deriving DecidableEq

/-- Lines 298-305: build the row for one short.  `oracle` stands for the
(cached) `generar_transcripcion` call on the short's URL; Python's
truthiness test `transcript if transcript else ...` sends both `None` and
the empty string to the placeholder. -/
def filaDe (oracle : String → Option String) (short : ShortRecord) : ResultRow :=
  ⟨short.video_id, short.title, short.url,
    match oracle short.url with
    | some t => if t = "" then placeholder else t
    | none => placeholder⟩

/-- The `for i, short in enumerate(shorts_info)` loop (lines 295-309):
first component the appended rows in order, second component the
`(i + 1, len(shorts_info))` progress reports in order (`total` is the
length of the truncated list, `i` the running index). -/
def procesarLista (oracle : String → Option String) (total : Nat) :
    Nat → List ShortRecord → List ResultRow × List (Nat × Nat)
  | _, [] => ([], [])
  | i, s :: rest =>
    let siguientes := procesarLista oracle total (i + 1) rest
    (filaDe oracle s :: siguientes.1, (i + 1, total) :: siguientes.2)

/-- The post-enumeration part of `main` (lines 282-309): abort on an empty
enumeration result, truncate to `max_shorts` (`shorts_info[:max_shorts]`),
then process each remaining short in order. -/
def main_procesar (oracle : String → Option String) (shorts : List ShortRecord)
    (maxShorts : Nat) : List ResultRow × List (Nat × Nat) :=
  if shorts = [] then ([], [])
  else
    let sel := shorts.take maxShorts
    procesarLista oracle sel.length 0 sel

example :
    main_procesar (fun u => if u = "u1" then some "hola" else none)
      [⟨"v1", "t1", "u1"⟩, ⟨"v2", "t2", "u2"⟩, ⟨"v3", "t3", "u3"⟩] 2 =
    ([⟨"v1", "t1", "u1", "hola"⟩, ⟨"v2", "t2", "u2", placeholder⟩],
     [(1, 2), (2, 2)]) := by decide

/-- C1: the landing page below carries the hidden field
`name="_token" value="SECRET123"` with a non-empty value, yet the token the
code extracts is empty: `find` returns the marker position, the code adds
20 although the marker `name="_token" value="` is 21 characters long, so
the slice starts on the closing-quote search's own start position and is
empty.  `generar_transcripcion` therefore returns `None` without submitting
any POST (`tokenEnviado = none`) even though every later step of the
service would have succeeded. -/
theorem c1_bug_evidence :
    extraerToken
      "<html><input type=\"hidden\" name=\"_token\" value=\"SECRET123\"></html>".data
      = [] ∧
    generar_transcripcion
      ⟨RespHttp.resp true
          "<html><input type=\"hidden\" name=\"_token\" value=\"SECRET123\"></html>".data,
        RespExtract.ok (some [some "https://downsub.com/t.txt".data]),
        RespHttp.resp true "hello".data⟩ = ⟨none, none⟩ := by
  decide

/-- C2, counterexample: for the malformed duration code `""` the
classification in `obtener_shorts_del_canal` evaluates to short-form
(`true`), not `false` as claimed; and for the malformed code `"PTxM"` the
`int` conversion raises a `ValueError` (modelled as `none`) instead of
classifying at all. -/
theorem c2_counterexample :
    esShortDuration "" = some true ∧ esShortDuration "" ≠ some false ∧
    esShortDuration "PTxM" = none := by
  decide

/-- C2, amended: for every malformed duration code (one whose pre-`M` text,
after deleting `PT`, does not parse as an integer — the empty string
included), the classification returns `true` when the code contains no `M`
at all, and raises an exception (modelled as `none`) when it does contain
an `M`; it never returns `false` for such codes. -/
theorem c2_amended (d : String)
    (h : pyInt? (quitarPT (d.data.takeWhile (fun c => c ≠ 'M'))) = none) :
    esShortDuration d = if d.data.contains 'M' = true then none else some true := by
  unfold esShortDuration
  simp only [ne_eq, decide_not] at h
  cases hM : d.data.contains 'M' <;> simp [hM, h]

/-- Witness for `c2_amended` at the concrete malformed code `"PTxM"`. -/
theorem c2_amended_witness :
    esShortDuration "PTxM" =
      if "PTxM".data.contains 'M' = true then none else some true :=
  c2_amended "PTxM" (by decide)

/-- C4: on the well-formed duration code `PT1H2M3S` (one hour, two minutes,
three seconds — a code with a minutes component ≥ 1) the classification
does not return `false`: `int('1H2')` raises a `ValueError` (modelled as
`none`), and because neither `except HttpError` clause catches it, the
whole enumeration aborts through the outermost handler with an empty
result, dropping even the other, well-behaved videos of the page. -/
theorem c4_bug_evidence :
    esShortDuration "PT1H2M3S" = none ∧
    obtener_shorts_del_canal
      [Pagina.ok [⟨"v1", "t1", .ok "PT1H2M3S"⟩, ⟨"v2", "t2", .ok "PT30S"⟩]] =
      ⟨[], some mensajeInesperado⟩ := by
  decide

/-- When the page body succeeds it only ever appends records to `acc`, and
the video ids of the appended records form a sublist of the page items'
video ids, in order. -/
theorem procesarPagina_extiende :
    ∀ (items : List PageItem) (acc acc2 : List ShortRecord),
    procesarPagina acc items = some acc2 →
    ∃ nuevos, acc2 = acc ++ nuevos ∧
      List.Sublist (nuevos.map ShortRecord.video_id) (items.map PageItem.videoId) := by
  intro items
  induction items with
  | nil =>
    intro acc acc2 h
    simp only [procesarPagina, Option.some.injEq] at h
    exact ⟨[], by simp [h], by simp⟩
  | cons it rest ih =>
    intro acc acc2 h
    rcases it with ⟨v, t, lk⟩
    cases lk with
    | httpError m =>
      simp only [procesarPagina] at h
      obtain ⟨n, hn, hs⟩ := ih acc acc2 h
      exact ⟨n, hn, hs.cons _⟩
    | noItems =>
      simp only [procesarPagina] at h
      obtain ⟨n, hn, hs⟩ := ih acc acc2 h
      exact ⟨n, hn, hs.cons _⟩
    | ok dur =>
      simp only [procesarPagina] at h
      cases hdur : esShortDuration dur with
      | none => rw [hdur] at h; cases h
      | some b =>
        rw [hdur] at h
        cases b
        · obtain ⟨n, hn, hs⟩ := ih acc acc2 h
          exact ⟨n, hn, hs.cons _⟩
        · obtain ⟨n, hn, hs⟩ := ih _ acc2 h
          refine ⟨⟨v, t, urlDeShort v⟩ :: n, ?_, ?_⟩
          · rw [hn]; simp
          · simpa using hs.cons₂ v

/-- Page-by-page version of `procesarPagina_extiende`: the loop either
aborts with an empty record list, or extends `acc` with records whose
video ids are drawn, in order, from the pages' item ids. -/
def idsDePaginas : List Pagina → List String
  | [] => []
  | Pagina.httpError _ :: rest => idsDePaginas rest
  | Pagina.errorField _ :: rest => idsDePaginas rest
  | Pagina.ok items :: rest => items.map PageItem.videoId ++ idsDePaginas rest

theorem bucle_extiende :
    ∀ (pages : List Pagina) (acc : List ShortRecord),
    (buclePaginas acc pages).records = [] ∨
    ∃ nuevos, (buclePaginas acc pages).records = acc ++ nuevos ∧
      List.Sublist (nuevos.map ShortRecord.video_id) (idsDePaginas pages) := by
  intro pages
  induction pages with
  | nil =>
    intro acc
    right
    exact ⟨[], by simp [buclePaginas], by simp⟩
  | cons p rest ih =>
    intro acc
    by_cases hlen : acc.length < 50
    · cases p with
      | httpError m => left; simp [buclePaginas, hlen]
      | errorField m => left; simp [buclePaginas, hlen]
      | ok items =>
        cases hpp : procesarPagina acc items with
        | none => left; simp [buclePaginas, hlen, hpp]
        | some acc2 =>
          have hred : buclePaginas acc (Pagina.ok items :: rest) = buclePaginas acc2 rest := by
            simp [buclePaginas, hlen, hpp]
          rw [hred]
          rcases ih acc2 with h0 | ⟨n, hn, hs⟩
          · left; exact h0
          · right
            obtain ⟨n1, hn1, hs1⟩ := procesarPagina_extiende items acc acc2 hpp
            refine ⟨n1 ++ n, ?_, ?_⟩
            · rw [hn, hn1, List.append_assoc]
            · rw [List.map_append]
              exact hs1.append hs
    · right
      refine ⟨[], ?_, by simp⟩
      simp [buclePaginas, hlen]

/-- C9, counterexample: the enumerator performs no deduplication, so a
search result that lists the same `videoId` twice yields two
`ShortRecord`s with the same `video_id` in one result set. -/
theorem c9_counterexample :
    (obtener_shorts_del_canal
        [Pagina.ok [⟨"dup", "t1", .ok "PT10S"⟩, ⟨"dup", "t2", .ok "PT20S"⟩]]).records.map
        ShortRecord.video_id = ["dup", "dup"] ∧
    ¬ ((obtener_shorts_del_canal
        [Pagina.ok [⟨"dup", "t1", .ok "PT10S"⟩, ⟨"dup", "t2", .ok "PT20S"⟩]]).records.map
        ShortRecord.video_id).Nodup := by
  decide

/-- C9, amended: whenever the video ids carried by the search-result pages
are pairwise distinct, the enumeration result satisfies the claimed
invariant — its records' `video_id` values are pairwise distinct; the
enumerator itself adds no deduplication. -/
theorem c9_amended (pages : List Pagina) (h : (idsDePaginas pages).Nodup) :
    ((obtener_shorts_del_canal pages).records.map ShortRecord.video_id).Nodup := by
  unfold obtener_shorts_del_canal
  rcases bucle_extiende pages [] with h0 | ⟨n, hn, hs⟩
  · rw [h0]; simp
  · rw [hn]
    simp only [List.nil_append]
    exact h.sublist hs

/-- Witness for `c9_amended` at a concrete two-item page with distinct ids. -/
theorem c9_amended_witness :
    ((obtener_shorts_del_canal
        [Pagina.ok [⟨"a", "t", .ok "PT10S"⟩, ⟨"b", "t", .ok "PT20S"⟩]]).records.map
        ShortRecord.video_id).Nodup :=
  c9_amended _ (by decide)

/-- Number of search items a page carries. -/
def tamanoPagina : Pagina → Nat
  | .httpError _ => 0
  | .errorField _ => 0
  | .ok items => items.length

/-- One page appends at most its item count to the accumulator. -/
theorem procesarPagina_cota (items : List PageItem) (acc acc2 : List ShortRecord)
    (h : procesarPagina acc items = some acc2) :
    acc2.length ≤ acc.length + items.length := by
  obtain ⟨n, hn, hs⟩ := procesarPagina_extiende items acc acc2 h
  have h1 : n.length ≤ items.length := by
    have := hs.length_le
    simpa using this
  rw [hn]
  simp only [List.length_append]
  omega

/-- The loop keeps the record count at or below 99: a page is only entered
with fewer than 50 accumulated records, and a page of at most 50 items
adds at most 50 more. -/
theorem bucle_cota :
    ∀ (pages : List Pagina) (acc : List ShortRecord),
    (∀ p ∈ pages, tamanoPagina p ≤ 50) → acc.length ≤ 99 →
    (buclePaginas acc pages).records.length ≤ 99 := by
  intro pages
  induction pages with
  | nil =>
    intro acc _ hacc
    simpa [buclePaginas] using hacc
  | cons p rest ih =>
    intro acc hp hacc
    by_cases hlen : acc.length < 50
    · cases p with
      | httpError m => simp [buclePaginas, hlen]
      | errorField m => simp [buclePaginas, hlen]
      | ok items =>
        cases hpp : procesarPagina acc items with
        | none => simp [buclePaginas, hlen, hpp]
        | some acc2 =>
          have hred : buclePaginas acc (Pagina.ok items :: rest) = buclePaginas acc2 rest := by
            simp [buclePaginas, hlen, hpp]
          rw [hred]
          refine ih acc2 (fun q hq => hp q (List.mem_cons_of_mem _ hq)) ?_
          have h2 := procesarPagina_cota items acc acc2 hpp
          have h3 : items.length ≤ 50 := by
            simpa [tamanoPagina] using hp _ (List.mem_cons_self _ _)
          omega
    · have hred : buclePaginas acc (p :: rest) = ⟨acc, none⟩ := by
        simp [buclePaginas, hlen]
      rw [hred]
      exact hacc

/-- C3, counterexample: the 50-record cap is only tested between pages, and
a whole page is processed once entered, so two pages of 2 and 50
qualifying videos (both within the API page size of 50) produce 52
records — the claimed bound of 50 is exceeded. -/
theorem c3_counterexample :
    50 < (obtener_shorts_del_canal
        [Pagina.ok (List.replicate 2 ⟨"v", "t", .ok "PT30S"⟩),
         Pagina.ok (List.replicate 50 ⟨"v", "t", .ok "PT30S"⟩)]).records.length ∧
    (∀ p ∈ [Pagina.ok (List.replicate 2 (⟨"v", "t", .ok "PT30S"⟩ : PageItem)),
         Pagina.ok (List.replicate 50 (⟨"v", "t", .ok "PT30S"⟩ : PageItem))],
       tamanoPagina p ≤ 50) := by
  constructor
  · decide
  · decide

/-- C3, amended: with pages of at most 50 items (the page size the source
requests), the enumeration result holds at most 99 records — at most 49
accumulated before the final processed page plus that page's at most 50
items; the loop does stop requesting pages once 50 records are
accumulated, but the claimed bound of 50 itself only fails by the size of
the last processed page. -/
theorem c3_amended (pages : List Pagina) (h : ∀ p ∈ pages, tamanoPagina p ≤ 50) :
    (obtener_shorts_del_canal pages).records.length ≤ 99 :=
  bucle_cota pages [] h (by simp)

/-- Witness for `c3_amended` at a concrete one-page input. -/
theorem c3_amended_witness :
    (obtener_shorts_del_canal [Pagina.ok [⟨"a", "t", .ok "PT10S"⟩]]).records.length ≤ 99 :=
  c3_amended _ (by decide)

/-- Removing an item whose metadata lookup raises `HttpError` from a page
leaves the page body's result unchanged: the item is skipped with a
warning and contributes nothing. -/
theorem procesarPagina_salta (vid ttl m : String) :
    ∀ (l1 l2 : List PageItem) (acc : List ShortRecord),
    procesarPagina acc (l1 ++ ⟨vid, ttl, .httpError m⟩ :: l2) =
    procesarPagina acc (l1 ++ l2) := by
  intro l1
  induction l1 with
  | nil =>
    intro l2 acc
    simp [procesarPagina]
  | cons it l1' ih =>
    intro l2 acc
    rcases it with ⟨v, t, lk⟩
    cases lk with
    | httpError m2 => simpa [procesarPagina] using ih l2 acc
    | noItems => simpa [procesarPagina] using ih l2 acc
    | ok dur =>
      simp only [List.cons_append, procesarPagina]
      cases esShortDuration dur with
      | none => rfl
      | some b => cases b <;> simp [ih]

/-- The page loop is insensitive to replacing one page body with another
that behaves identically on every accumulator. -/
theorem bucle_congr (items1 items2 : List PageItem)
    (h : ∀ acc, procesarPagina acc items1 = procesarPagina acc items2) :
    ∀ (antes despues : List Pagina) (acc : List ShortRecord),
    buclePaginas acc (antes ++ Pagina.ok items1 :: despues) =
    buclePaginas acc (antes ++ Pagina.ok items2 :: despues) := by
  intro antes
  induction antes with
  | nil =>
    intro despues acc
    simp only [List.nil_append, buclePaginas]
    rw [h acc]
  | cons p antes' ih =>
    intro despues acc
    by_cases hlen : acc.length < 50
    · cases p with
      | httpError m =>
        have e1 : ∀ cola, buclePaginas acc (Pagina.httpError m :: cola) =
            ⟨[], some (categorizar m)⟩ := by
          intro cola; simp [buclePaginas, hlen]
        rw [List.cons_append, List.cons_append, e1, e1]
      | errorField m =>
        have e1 : ∀ cola, buclePaginas acc (Pagina.errorField m :: cola) =
            ⟨[], some ("Error de API de YouTube: " ++ m)⟩ := by
          intro cola; simp [buclePaginas, hlen]
        rw [List.cons_append, List.cons_append, e1, e1]
      | ok items =>
        cases hpp : procesarPagina acc items with
        | none =>
          have e1 : ∀ cola, buclePaginas acc (Pagina.ok items :: cola) =
              ⟨[], some mensajeInesperado⟩ := by
            intro cola; simp [buclePaginas, hlen, hpp]
          rw [List.cons_append, List.cons_append, e1, e1]
        | some acc2 =>
          have e1 : ∀ cola, buclePaginas acc (Pagina.ok items :: cola) =
              buclePaginas acc2 cola := by
            intro cola; simp [buclePaginas, hlen, hpp]
          rw [List.cons_append, List.cons_append, e1, e1, ih despues acc2]
    · have e1 : ∀ cola, buclePaginas acc (p :: cola) = ⟨acc, none⟩ := by
        intro cola; cases p <;> simp [buclePaginas, hlen]
      rw [List.cons_append, List.cons_append, e1, e1]

/-- The generic API message starts with the letter `E`. -/
theorem mensajeGenerico_cabeza (m : String) :
    (mensajeGenerico m).data.head? = some 'E' := rfl

/-- The generic message differs from the quota message whatever the error
text is. -/
theorem generico_ne_cuota (m : String) : mensajeGenerico m ≠ mensajeCuota := by
  intro h
  have h2 : (some 'E' : Option Char) = some 'S' :=
    calc (some 'E' : Option Char) = (mensajeGenerico m).data.head? :=
          (mensajeGenerico_cabeza m).symm
    _ = mensajeCuota.data.head? := by rw [h]
    _ = some 'S' := rfl
  exact absurd h2 (by decide)

/-- The generic message differs from the invalid-key message whatever the
error text is. -/
theorem generico_ne_invalida (m : String) : mensajeGenerico m ≠ mensajeInvalida := by
  intro h
  have h2 : (some 'E' : Option Char) = some 'L' :=
    calc (some 'E' : Option Char) = (mensajeGenerico m).data.head? :=
          (mensajeGenerico_cabeza m).symm
    _ = mensajeInvalida.data.head? := by rw [h]
    _ = some 'L' := rfl
  exact absurd h2 (by decide)

/-- C5: error handling of the enumerator.  (i) A metadata-lookup failure
for a single video is non-fatal: an enumeration whose page contains an
`HttpError` item equals the enumeration with that item removed, so every
other video of the page survives.  (ii) A page-level `HttpError` reached
by the loop is fatal: the whole enumeration returns the empty record list
together with the categorized message.  (iii) The message is the
quota-specific text when `str(e).lower()` contains `quota`, the
invalid-credential text when it contains `invalid` (and no `quota`), and a
generic text otherwise, and the three texts are pairwise distinct. -/
theorem c5_manejo_errores :
    (∀ (antes despues : List Pagina) (l1 l2 : List PageItem) (vid ttl m : String),
      obtener_shorts_del_canal
          (antes ++ Pagina.ok (l1 ++ ⟨vid, ttl, .httpError m⟩ :: l2) :: despues) =
        obtener_shorts_del_canal (antes ++ Pagina.ok (l1 ++ l2) :: despues)) ∧
    (∀ (acc : List ShortRecord) (m : String) (rest : List Pagina),
      acc.length < 50 →
      buclePaginas acc (Pagina.httpError m :: rest) = ⟨[], some (categorizar m)⟩) ∧
    (∀ m : String,
      (contieneSub "quota".data (m.data.map minusculaAscii) = true →
        categorizar m = mensajeCuota) ∧
      (contieneSub "quota".data (m.data.map minusculaAscii) = false →
        contieneSub "invalid".data (m.data.map minusculaAscii) = true →
        categorizar m = mensajeInvalida) ∧
      (contieneSub "quota".data (m.data.map minusculaAscii) = false →
        contieneSub "invalid".data (m.data.map minusculaAscii) = false →
        categorizar m = mensajeGenerico m) ∧
      mensajeCuota ≠ mensajeInvalida ∧
      mensajeGenerico m ≠ mensajeCuota ∧ mensajeGenerico m ≠ mensajeInvalida) := by
  refine ⟨?_, ?_, ?_⟩
  · intro antes despues l1 l2 vid ttl m
    exact bucle_congr _ _ (fun acc => procesarPagina_salta vid ttl m l1 l2 acc) antes despues []
  · intro acc m rest hlen
    simp [buclePaginas, hlen]
  · intro m
    refine ⟨?_, ?_, ?_, by decide, generico_ne_cuota m, generico_ne_invalida m⟩
    · intro h1; simp [categorizar, h1]
    · intro h1 h2; simp [categorizar, h1, h2]
    · intro h1 h2; simp [categorizar, h1, h2]

/-- Witness for `c5_manejo_errores`: a concrete quota failure on the first
page yields the empty result with the quota message. -/
theorem c5_manejo_errores_witness :
    buclePaginas [] [Pagina.httpError "Daily Quota exceeded"] =
      ⟨[], some mensajeCuota⟩ := by
  rw [c5_manejo_errores.2.1 [] "Daily Quota exceeded" [] (by decide)]
  rw [(c5_manejo_errores.2.2 "Daily Quota exceeded").1 (by decide)]

/-- Every line produced by the boundary split is free of boundary
characters. -/
theorem cortarLimites_sin_limite :
    ∀ (s : List Char), ∀ l ∈ cortarLimites s, ∀ c ∈ l, esLimite c = false := by
  intro s
  induction s with
  | nil => intro l h; cases h
  | cons c rest ih =>
    intro l hl c2 hc2
    by_cases hb : esLimite c = true
    · rw [show cortarLimites (c :: rest) = [] :: cortarLimites rest from by
        simp [cortarLimites, hb]] at hl
      rcases List.mem_cons.mp hl with h1 | h1
      · subst h1; cases hc2
      · exact ih l h1 c2 hc2
    · have hb2 : esLimite c = false := by simpa using hb
      rcases hmatch : cortarLimites rest with _ | ⟨l1, ls⟩
      · rw [show cortarLimites (c :: rest) = [[c]] from by
          simp [cortarLimites, hb2, hmatch]] at hl
        rcases List.mem_cons.mp hl with h1 | h1
        · subst h1
          rcases List.mem_cons.mp hc2 with h2 | h2
          · subst h2; exact hb2
          · cases h2
        · cases h1
      · rw [show cortarLimites (c :: rest) = (c :: l1) :: ls from by
          simp [cortarLimites, hb2, hmatch]] at hl
        rcases List.mem_cons.mp hl with h1 | h1
        · subst h1
          rcases List.mem_cons.mp hc2 with h2 | h2
          · subst h2; exact hb2
          · exact ih l1 (by rw [hmatch]; exact List.mem_cons_self _ _) c2 h2
        · exact ih l (by rw [hmatch]; exact List.mem_cons_of_mem _ h1) c2 hc2

/-- A non-empty, boundary-free line splits to itself alone. -/
theorem cortarLimites_solo :
    ∀ (l : List Char), l ≠ [] → (∀ c ∈ l, esLimite c = false) →
    cortarLimites l = [l] := by
  intro l
  induction l with
  | nil => intro hne; cases hne rfl
  | cons c rest ih =>
    intro _ h
    have hc : esLimite c = false := h c (List.mem_cons_self _ _)
    by_cases hr : rest = []
    · subst hr; simp [cortarLimites, hc]
    · have hrec := ih hr (fun c2 h2 => h c2 (List.mem_cons_of_mem _ h2))
      simp [cortarLimites, hc, hrec]

/-- Splitting a boundary-free line followed by a newline peels off exactly
that line. -/
theorem cortarLimites_append_nl :
    ∀ (l : List Char), (∀ c ∈ l, esLimite c = false) → ∀ (rest : List Char),
    cortarLimites (l ++ '\n' :: rest) = l :: cortarLimites rest := by
  intro l
  induction l with
  | nil =>
    intro _ rest
    have : esLimite '\n' = true := by decide
    simp [cortarLimites, this]
  | cons c l2 ih =>
    intro h rest
    have hc : esLimite c = false := h c (List.mem_cons_self _ _)
    have hrec := ih (fun c2 h2 => h c2 (List.mem_cons_of_mem _ h2)) rest
    simp [cortarLimites, hc, hrec]

/-- Characters of a newline-join come from the lines or are the newline
separator itself. -/
theorem unirNL_mem :
    ∀ (ls : List (List Char)) (c : Char), c ∈ unirNL ls →
    c = '\n' ∨ ∃ l ∈ ls, c ∈ l := by
  intro ls
  induction ls with
  | nil => intro c h; cases h
  | cons l ls2 ih =>
    cases ls2 with
    | nil =>
      intro c h
      right
      exact ⟨l, List.mem_cons_self _ _, h⟩
    | cons l2 ls3 =>
      intro c h
      rw [show unirNL (l :: l2 :: ls3) = l ++ '\n' :: unirNL (l2 :: ls3) from rfl] at h
      rcases List.mem_append.mp h with h1 | h1
      · right; exact ⟨l, List.mem_cons_self _ _, h1⟩
      · rcases List.mem_cons.mp h1 with h2 | h2
        · left; exact h2
        · rcases ih c h2 with h3 | ⟨l3, hl3, hc3⟩
          · left; exact h3
          · right; exact ⟨l3, List.mem_cons_of_mem _ hl3, hc3⟩

/-- Splitting a newline-join of non-empty boundary-free lines recovers
exactly those lines. -/
theorem cortarLimites_unirNL :
    ∀ (ls : List (List Char)),
    (∀ l ∈ ls, l ≠ [] ∧ ∀ c ∈ l, esLimite c = false) →
    cortarLimites (unirNL ls) = ls := by
  intro ls
  induction ls with
  | nil => intro _; rfl
  | cons l ls2 ih =>
    cases ls2 with
    | nil =>
      intro h
      exact cortarLimites_solo l (h l (List.mem_cons_self _ _)).1
        (h l (List.mem_cons_self _ _)).2
    | cons l2 ls3 =>
      intro h
      rw [show unirNL (l :: l2 :: ls3) = l ++ '\n' :: unirNL (l2 :: ls3) from rfl]
      rw [cortarLimites_append_nl l (h l (List.mem_cons_self _ _)).2]
      rw [ih (fun q hq => h q (List.mem_cons_of_mem _ hq))]

/-- If a string has no carriage return, CR-LF fusion leaves it unchanged. -/
theorem fundir_sin_cr :
    ∀ (s : List Char), (∀ c ∈ s, c ≠ '\r') → fundirCRLF s = s := by
  intro s
  induction s with
  | nil => intro _; rfl
  | cons c rest ih =>
    intro h
    cases rest with
    | nil => rfl
    | cons d rest2 =>
      have hc : c ≠ '\r' := h c (List.mem_cons_self _ _)
      have e1 : fundirCRLF (c :: d :: rest2) = c :: fundirCRLF (d :: rest2) := by
        simp [fundirCRLF, hc]
      rw [e1, ih (fun c2 h2 => h c2 (List.mem_cons_of_mem _ h2))]

/-- Splitting the output of the blank-line filter recovers exactly the
filtered lines of the input: they are non-empty, boundary-free, and CR
free, so the join-then-split round trip is the identity on them. -/
theorem pySplitlines_limpiar (s : List Char) :
    pySplitlines (limpiarLineas s) = (pySplitlines s).filter lineaNoBlanca := by
  have hprops : ∀ l ∈ (pySplitlines s).filter lineaNoBlanca,
      l ≠ [] ∧ ∀ c ∈ l, esLimite c = false := by
    intro l hl
    have h1 : l ∈ pySplitlines s := List.mem_of_mem_filter hl
    have h2 : lineaNoBlanca l = true := List.of_mem_filter hl
    refine ⟨?_, cortarLimites_sin_limite (fundirCRLF s) l h1⟩
    intro he
    subst he
    simp [lineaNoBlanca] at h2
  have hnr : ∀ c ∈ unirNL ((pySplitlines s).filter lineaNoBlanca), c ≠ '\r' := by
    intro c hc
    rcases unirNL_mem _ c hc with h1 | ⟨l, hl, hcl⟩
    · subst h1; decide
    · have h3 := (hprops l hl).2 c hcl
      intro he
      subst he
      exact absurd h3 (by decide)
  show cortarLimites (fundirCRLF (limpiarLineas s)) = _
  rw [show limpiarLineas s = unirNL ((pySplitlines s).filter lineaNoBlanca) from rfl]
  rw [fundir_sin_cr _ hnr]
  exact cortarLimites_unirNL _ hprops

/-- The blank-line filter stage is idempotent as a whole-string transform. -/
theorem limpiar_idempotente (s : List Char) :
    limpiarLineas (limpiarLineas s) = limpiarLineas s := by
  have h1 : limpiarLineas (limpiarLineas s) =
      unirNL ((pySplitlines (limpiarLineas s)).filter lineaNoBlanca) := rfl
  rw [h1, pySplitlines_limpiar]
  have h2 : ((pySplitlines s).filter lineaNoBlanca).filter lineaNoBlanca =
      (pySplitlines s).filter lineaNoBlanca :=
    List.filter_eq_self.mpr (fun a ha => List.of_mem_filter ha)
  rw [h2]
  rfl

/-- C6, counterexample: normalization is not idempotent, because the
HTML-entity decoding pass is applied again on the second run: the input
`&amp;amp;` normalizes to `&amp;`, which normalizes further to `&`. -/
theorem c6_counterexample :
    normalizar (normalizar "&amp;amp;") ≠ normalizar "&amp;amp;" ∧
    normalizar "&amp;amp;" = "&amp;" ∧ normalizar (normalizar "&amp;amp;") = "&" := by
  decide

/-- C6, amended: the line-filtering stage of normalization (split, drop
empty or whitespace-only lines, rejoin with single newlines) is idempotent
for every input; the output of full normalization contains no empty or
whitespace-only line; and `&amp;` is decoded to `&`.  Full normalization
itself is not idempotent, because entity decoding is reapplied on a second
pass (see the counterexample `&amp;amp;`). -/
theorem c6_amended :
    (∀ s : List Char, limpiarLineas (limpiarLineas s) = limpiarLineas s) ∧
    (∀ s : List Char, ∀ l ∈ pySplitlines (normalizarLista s), lineaNoBlanca l = true) ∧
    normalizar "&amp;" = "&" := by
  refine ⟨limpiar_idempotente, ?_, by decide⟩
  intro s l hl
  have h1 : pySplitlines (normalizarLista s) =
      (pySplitlines (pyUnescape s)).filter lineaNoBlanca :=
    pySplitlines_limpiar (pyUnescape s)
  rw [h1] at hl
  exact List.of_mem_filter hl

/-- Witness for `c6_amended` at concrete inputs: idempotence of the filter
stage on a three-line string, and non-blankness of a concrete output
line. -/
theorem c6_amended_witness :
    limpiarLineas (limpiarLineas "a\n \nb".data) = limpiarLineas "a\n \nb".data ∧
    lineaNoBlanca "a".data = true :=
  ⟨c6_amended.1 "a\n \nb".data,
   c6_amended.2.1 " \na\n\n".data "a".data (by decide)⟩

/-- Body text of an HTTP response behaviour, empty for a raised call. -/
def cuerpoRespuesta : RespHttp → List Char
  | .exn => []
  | .resp _ b => b

/-- Success condition of the transcript state machine as the embedded code
realises it: landing fetch succeeds, the extracted token (as the code
extracts it) is non-empty, the extraction POST succeeds with parseable
JSON whose `data` list starts with an element carrying a non-empty `url`
(line 207's `if transcript_url:` is falsy for the empty string), and the
transcript fetch succeeds. -/
def exitoSesion (env : TranscriptEnv) : Bool :=
  match env.landing with
  | .exn => false
  | .resp ok content =>
    if ok = false then false
    else if extraerToken content = [] then false
    else
      match env.extract with
      | .ok (some (some turl :: _)) =>
        if turl = [] then false
        else
          match env.transcript with
          | .resp true _ => true
          | _ => false
      | _ => false

/-- C7: for every behaviour of the transcript service,
`generar_transcripcion` returns `none` unless every step of the protocol
succeeds (transport failure, missing token, non-success POST status,
invalid JSON, empty or absent `data` list, missing `url` field, and failed
transcript GET all yield the absent result — the embedding is total, so no
exception escapes), and on full success it returns exactly the normalized
transcript body. -/
theorem c7_caracterizacion (env : TranscriptEnv) :
    (generar_transcripcion env).resultado =
      if exitoSesion env = true then
        some (normalizarLista (cuerpoRespuesta env.transcript))
      else none := by
  rcases env with ⟨l, e, t⟩
  cases l with
  | exn => simp [generar_transcripcion, exitoSesion]
  | resp ok content =>
    cases ok
    · simp [generar_transcripcion, exitoSesion]
    · by_cases htok : extraerToken content = []
      · simp [generar_transcripcion, exitoSesion, htok]
      · cases e with
        | exn => simp [generar_transcripcion, exitoSesion, htok]
        | notOk => simp [generar_transcripcion, exitoSesion, htok]
        | badJson => simp [generar_transcripcion, exitoSesion, htok]
        | ok dataField =>
          match dataField with
          | none => simp [generar_transcripcion, exitoSesion, htok]
          | some [] => simp [generar_transcripcion, exitoSesion, htok]
          | some (none :: cola) => simp [generar_transcripcion, exitoSesion, htok]
          | some (some u :: cola) =>
            by_cases hu : u = []
            · simp [generar_transcripcion, exitoSesion, htok, hu]
            · cases t with
              | exn => simp [generar_transcripcion, exitoSesion, htok, hu]
              | resp tok tb =>
                cases tok <;>
                  simp [generar_transcripcion, exitoSesion, cuerpoRespuesta, htok, hu]

/-- Closed form of the orchestrator loop: the rows are the mapped records
in order, and the progress reports count up from the start index. -/
theorem procesarLista_forma (oracle : String → Option String) (total : Nat) :
    ∀ (sel : List ShortRecord) (i : Nat),
    procesarLista oracle total i sel =
      (sel.map (filaDe oracle),
       (List.range sel.length).map (fun k => (i + k + 1, total))) := by
  intro sel
  induction sel with
  | nil => intro i; rfl
  | cons s rest ih =>
    intro i
    simp only [procesarLista, ih (i + 1), List.map_cons, List.length_cons]
    refine congrArg₂ Prod.mk rfl ?_
    rw [List.range_succ_eq_map, List.map_cons, List.map_map]
    refine congrArg₂ List.cons rfl ?_
    refine List.map_congr_left ?_
    intro k _
    simp only [Function.comp_apply]
    refine congrArg₂ Prod.mk ?_ rfl
    omega

/-- C8, counterexample: when the acquired transcript is the empty string
(acquisition succeeded), the produced row still carries the placeholder,
not the acquired transcript — the Python truthiness test
`transcript if transcript else ...` cannot distinguish `None` from `""`. -/
theorem c8_counterexample :
    (main_procesar (fun _ => some "") [⟨"v", "t", "u"⟩] 1).1 =
      [⟨"v", "t", "u", placeholder⟩] ∧
    placeholder ≠ "" := by
  decide

/-- C8, amended: the orchestrator processes exactly the first `max_count`
records in enumeration order, producing one row per record in order via
`filaDe` — whose transcript field is the acquired transcript when present
and non-empty, and the fixed placeholder when the transcript is absent
*or empty* — and the progress reports are exactly
`(1, total), ..., (total, total)` in order, where `total` is the length of
the truncated list. -/
theorem c8_amended (oracle : String → Option String) (shorts : List ShortRecord)
    (maxShorts : Nat) :
    (main_procesar oracle shorts maxShorts).1 =
      (shorts.take maxShorts).map (filaDe oracle) ∧
    (main_procesar oracle shorts maxShorts).2 =
      (List.range (shorts.take maxShorts).length).map
        (fun k => (k + 1, (shorts.take maxShorts).length)) := by
  unfold main_procesar
  by_cases hs : shorts = []
  · subst hs; simp
  · simp only [if_neg hs]
    rw [procesarLista_forma]
    refine ⟨rfl, ?_⟩
    simp [Nat.zero_add]

/-- Rows produced by the loop are exactly `filaDe` images of processed
records. -/
theorem procesarLista_fila (oracle : String → Option String) (total : Nat) :
    ∀ (sel : List ShortRecord) (i : Nat) (r : ResultRow),
    r ∈ (procesarLista oracle total i sel).1 → ∃ s ∈ sel, r = filaDe oracle s := by
  intro sel
  induction sel with
  | nil => intro i r h; cases h
  | cons s rest ih =>
    intro i r h
    simp only [procesarLista] at h
    rcases List.mem_cons.mp h with h1 | h1
    · exact ⟨s, List.mem_cons_self _ _, h1⟩
    · obtain ⟨s2, hs2, hr⟩ := ih (i + 1) r h1
      exact ⟨s2, List.mem_cons_of_mem _ hs2, hr⟩

/-- C10: a successful-but-empty transcript is indistinguishable from a
failed acquisition in the output — (i) any row whose URL the transcript
oracle answers with `some ""` carries the fixed placeholder, and (ii) the
orchestrator produces literally the same rows under the
always-`some ""` oracle as under the always-`none` (always-failing)
oracle. -/
theorem c10_transcripcion_vacia :
    (∀ (oracle : String → Option String) (shorts : List ShortRecord)
       (maxShorts : Nat) (r : ResultRow),
       r ∈ (main_procesar oracle shorts maxShorts).1 →
       oracle r.url = some "" → r.transcripcion = placeholder) ∧
    (∀ (shorts : List ShortRecord) (maxShorts : Nat),
       (main_procesar (fun _ => some "") shorts maxShorts).1 =
       (main_procesar (fun _ => none) shorts maxShorts).1) := by
  constructor
  · intro oracle shorts maxS r hr hor
    unfold main_procesar at hr
    by_cases hs : shorts = []
    · rw [if_pos hs] at hr; cases hr
    · rw [if_neg hs] at hr
      obtain ⟨s, _, hr2⟩ := procesarLista_fila _ _ _ _ r hr
      subst hr2
      have hor2 : oracle s.url = some "" := hor
      simp [filaDe, hor2]
  · intro shorts maxS
    unfold main_procesar
    by_cases hs : shorts = []
    · simp [hs]
    · simp only [if_neg hs]
      rw [procesarLista_forma, procesarLista_forma]
      simp only []
      refine List.map_congr_left ?_
      intro s _
      simp [filaDe]

/-- Witness for `c10_transcripcion_vacia` at a concrete one-short run under
the oracle that always answers with the empty transcript. -/
theorem c10_transcripcion_vacia_witness :
    (⟨"v", "t", "u", placeholder⟩ : ResultRow).transcripcion = placeholder :=
  c10_transcripcion_vacia.1 (fun _ => some "") [⟨"v", "t", "u"⟩] 1
    ⟨"v", "t", "u", placeholder⟩ (by decide) (by decide)
